import Mathlib

/-!
Verification of the bot-selfie plugin core.

Shallow embedding of the plugin's core components and proofs of the spec's
claims about them:

* `src/core/rate_limiter.py` — `RateLimiter.check_and_consume`, a sliding-window
  per-key throttle.  `time.time()` values are modelled as rationals; the Python
  dictionary of per-key timestamp lists is modelled as a total function from
  keys to lists defaulting to `[]` (the code lazily creates a missing key as
  an empty list, and nothing else ever observes key presence).  A call that
  raises (`min` of an empty sequence raises `ValueError`) is modelled as `none`.
* `src/core/config.py` — `ConfigLoader._load_config`, a best-effort
  normalization of an arbitrary nested mapping.  Python values are modelled by
  the inductive `PyVal`; a raised `AttributeError` (calling `.get` on a
  non-mapping section) is modelled as `none`.
* `src/core/api_client.py` — `ApiClient._map_resolution` and
  `ApiClient.generate_image`.  The outbound HTTP call and filesystem effects are
  modelled by an explicit `ApiOutcome` argument describing what the transport
  produced (an exception, or a response with status/body); the `try/except`
  around the request is embedded directly in the definition.
-/

namespace BotSelfie

/-! ## A model of dynamically-typed Python values -/

/-- Model of the Python values that flow through the configuration loader and
the parsed JSON of the API response. -/
inductive PyVal where
  | none
  | bool (b : Bool)
  | int (n : Int)
  | str (s : String)
  | list (l : List PyVal)
  | dict (d : List (String × PyVal))

/-- Python truthiness (`bool(v)`): `None`, `False`, `0`, `""`, `[]`, `{}` are
falsy, everything else is truthy. -/
def PyVal.truthy : PyVal → Bool
  | .none => false
  | .bool b => b
  | .int n => n != 0
  | .str s => s ≠ ""
  | .list l => !l.isEmpty
  | .dict d => !d.isEmpty

/-! ## Models of the Python string methods used by the code

Only the ASCII behaviour matters for the spec's claims; the models below are
explicit so that every lemma about them is self-contained. -/

/-- The characters removed by Python `str.strip()` with no argument
(the ASCII whitespace characters). -/
def pySpace (c : Char) : Bool :=
  c = ' ' || c = '\t' || c = '\n' || c = '\x0b' || c = '\x0c' || c = '\r'

/-- ASCII lower-casing of one character, as Python `str.lower` does on ASCII. -/
def lowerChar (c : Char) : Char :=
  if 65 ≤ c.toNat ∧ c.toNat ≤ 90 then Char.ofNat (c.toNat + 32) else c

/-- Strip leading and trailing whitespace from a character list. -/
def stripChars (l : List Char) : List Char :=
  ((l.dropWhile pySpace).reverse.dropWhile pySpace).reverse

/-- Model of Python `str.strip()`. -/
def pyStrip (s : String) : String := ⟨stripChars s.data⟩

/-- Model of Python `str.lower()` (ASCII). -/
def pyLower (s : String) : String := ⟨s.data.map lowerChar⟩

/-- Model of Python `str.replace(' ', '')`: removing every space character. -/
def removeSpaces (s : String) : String := ⟨s.data.filter (fun c => c ≠ ' ')⟩

/-- ASCII decimal digit test (`\d` of the code's regular expression,
restricted to ASCII as everywhere in this development). -/
def isDigitB (c : Char) : Bool := 48 ≤ c.toNat && c.toNat ≤ 57

/-! ## RateLimiter (`src/core/rate_limiter.py`) -/

/-- State of `RateLimiter`: `max_requests`, `period_seconds`, and the per-key
timestamp lists (`self.requests`), modelled as a total function defaulting to
`[]`.  `max_requests` is taken in `ℕ` (the spec's claims concern `N ≥ 0`;
a negative Python value behaves exactly like `0`). -/
structure RateLimiter where
  max_requests : Nat
  period_seconds : ℚ
  requests : String → List ℚ

/-- The pruning comprehension of line 19:
`[t for t in self.requests[key] if current_time - t < self.period_seconds]`. -/
def pruneL (period now : ℚ) (l : List ℚ) : List ℚ :=
  l.filter (fun t => now - t < period)

/-- Python `int()` applied to a rational: truncation toward zero. -/
def pyInt (q : ℚ) : Int := if q < 0 then ⌈q⌉ else ⌊q⌋

/-- The rejection message built on line 23 of the rate limiter. -/
def rejectMessage (z : Int) : String :=
  "请求过于频繁，请等待 " ++ toString z ++ " 秒后再试"

/-- Model of `RateLimiter.check_and_consume`.  Returns `none` when the Python
code raises (`min([])` raises `ValueError`, reachable when the pruned list is
empty yet its length already reaches `max_requests`, i.e. `max_requests = 0`);
otherwise returns the `(allowed, message)` pair and the updated limiter. -/
def RateLimiter.check_and_consume (rl : RateLimiter) (key : String) (now : ℚ) :
    Option ((Bool × Option String) × RateLimiter) :=
  if rl.max_requests ≤ (pruneL rl.period_seconds now (rl.requests key)).length then
    match (pruneL rl.period_seconds now (rl.requests key)).min? with
    | Option.none => Option.none
    | some m =>
      some ((false, some (rejectMessage (pyInt (rl.period_seconds - (now - m))))),
        { rl with requests := fun k =>
            if k = key then pruneL rl.period_seconds now (rl.requests key)
            else rl.requests k })
  else
    some ((true, Option.none),
      { rl with requests := fun k =>
          if k = key then pruneL rl.period_seconds now (rl.requests key) ++ [now]
          else rl.requests k })

/-- A freshly constructed limiter: every key's list is empty. -/
def freshLimiter (n : Nat) (p : ℚ) : RateLimiter := ⟨n, p, fun _ => []⟩

/-- Run a sequence of `check_and_consume` calls for a single key at the given
times, collecting the results; `none` if any call raises. -/
def runKey (rl : RateLimiter) (key : String) :
    List ℚ → Option (List (Bool × Option String) × RateLimiter)
  | [] => some ([], rl)
  | now :: rest =>
    match rl.check_and_consume key now with
    | Option.none => Option.none
    | some (r, rl') =>
      match runKey rl' key rest with
      | Option.none => Option.none
      | some (rs, rlf) => some (r :: rs, rlf)

/-! ## ConfigLoader (`src/core/config.py`)

The raw configuration is an association list `List (String × PyVal)` (a Python
`dict`).  `ConfigLoader._load_config` is modelled by `loadConfig`, returning
`none` when the Python code would raise: calling `.get` on a section value that
is not a mapping raises `AttributeError`. -/

/-- Association-list lookup, modelling Python `dict` indexing / key search
(the first binding wins; a Python `dict` has unique keys). -/
def alistLookup : List (String × PyVal) → String → Option PyVal
  | [], _ => Option.none
  | (k, v) :: rest, key => if k = key then some v else alistLookup rest key

/-- Python `d.get(key, default)` on an association list known to be a dict. -/
def dget (kvs : List (String × PyVal)) (key : String) (default : PyVal) : PyVal :=
  match alistLookup kvs key with
  | some v => v
  | Option.none => default

/-- Python `key in d` on a dict. -/
def hasKey (kvs : List (String × PyVal)) (key : String) : Bool :=
  (alistLookup kvs key).isSome

/-- Python attribute access `.get` requires the value to be a mapping; on any
other value it raises `AttributeError`, modelled as `none`. -/
def asDict : PyVal → Option (List (String × PyVal))
  | .dict kvs => some kvs
  | _ => Option.none

/-- The settings produced by `ConfigLoader._load_config`.  Fields other than
`api_keys` hold whatever Python value the configuration supplied (the code does
not validate their types); `api_keys` is always a list of strings by
construction. -/
structure ConfigSettings where
  provider_id : PyVal
  api_type : PyVal
  model : PyVal
  api_keys : List String
  endpoint_id : PyVal
  api_base : PyVal
  default_size : PyVal
  watermark : PyVal
  optimize_prompt_mode : PyVal
  resolution : PyVal
  aspect_ratio : PyVal
  persona_reference_image : PyVal
  enable_auto_outfit : PyVal
  max_attempts_per_key : PyVal
  enable_smart_retry : PyVal
  total_timeout : PyVal
  rate_limit_enabled : PyVal
  rate_limit_max_requests : PyVal
  rate_limit_period : PyVal

/-- Scan of `provider_overrides` (lines 29-34): the first dict entry whose
`__template_key` equals `"doubao"` is copied with the discriminator removed;
no match (or a non-list `provider_overrides`) leaves the empty dict. -/
def findDoubaoGo : List PyVal → List (String × PyVal)
  | [] => []
  | .dict kvs :: rest =>
    (match dget kvs "__template_key" .none with
     | .str s => if s = "doubao" then kvs.filter (fun p => p.1 ≠ "__template_key") else findDoubaoGo rest
     | _ => findDoubaoGo rest)
  | _ :: rest => findDoubaoGo rest

/-- `doubao_settings` computed from the `provider_overrides` value. -/
def findDoubaoOverride : PyVal → List (String × PyVal)
  | .list overrides => findDoubaoGo overrides
  | _ => []

/-- The list comprehension of line 41:
`[k.strip() for k in api_keys if isinstance(k, str) and k.strip()]`. -/
def cleanKeys (vs : List PyVal) : List String :=
  vs.filterMap fun v =>
    match v with
    | .str s => if pyStrip s = "" then Option.none else some (pyStrip s)
    | _ => Option.none

/-- `doubao_settings.get('api_keys') or []` followed by the `isinstance(_, list)`
guard: a falsy value becomes the empty list, a truthy non-list fails the guard
(`none`), a truthy list passes through. -/
def pyOrList (v : PyVal) : Option (List PyVal) :=
  if v.truthy then
    match v with
    | .list vs => some vs
    | _ => Option.none
  else some []

/-- Lines 36-45: the API-key normalization given the matched doubao override. -/
def computeApiKeys (doubao : List (String × PyVal)) : List String :=
  if hasKey doubao "api_keys" then
    match pyOrList (dget doubao "api_keys" .none) with
    | some vs => cleanKeys vs
    | Option.none => []
  else
    match alistLookup doubao "api_key" with
    | some (.str s) => if pyStrip s = "" then [] else [pyStrip s]
    | _ => []

/-- Model of `ConfigLoader._load_config` on an input mapping.  `none` models a
raised `AttributeError` (a present top-level section that is not a mapping). -/
def loadConfig (config : List (String × PyVal)) : Option ConfigSettings := do
  let api_settings ← asDict (dget config "api_settings" (.dict []))
  let provider_id := dget api_settings "provider_id" (.str "")
  let api_type := dget api_settings "api_type" (.str "doubao")
  let model := dget api_settings "model" (.str "")
  let doubao := findDoubaoOverride (dget api_settings "provider_overrides" (.list []))
  let api_keys := computeApiKeys doubao
  -- lines 48-53: the `if doubao_settings:` block, falling back to the
  -- hard-coded initial values of lines 19-23
  let endpoint_id := if doubao.isEmpty then PyVal.str "doubao-seedream-4-5-251128"
    else dget doubao "endpoint_id" (.str "doubao-seedream-4-5-251128")
  let api_base := if doubao.isEmpty then PyVal.str "https://ark.cn-beijing.volces.com"
    else dget doubao "api_base" (.str "https://ark.cn-beijing.volces.com")
  let default_size := if doubao.isEmpty then PyVal.str "2K" else dget doubao "default_size" (.str "2K")
  let watermark := if doubao.isEmpty then PyVal.bool false else dget doubao "watermark" (.bool false)
  let optimize_prompt_mode := if doubao.isEmpty then PyVal.str "standard"
    else dget doubao "optimize_prompt_mode" (.str "standard")
  let igs ← asDict (dget config "image_generation_settings" (.dict []))
  let resolution := dget igs "resolution" (.str "1K")
  let aspect_ratio := dget igs "aspect_ratio" (.str "1:1")
  let ps ← asDict (dget config "persona_settings" (.dict []))
  let persona_reference_image := dget ps "persona_reference_image" (.list [])
  let enable_auto_outfit := dget ps "enable_auto_outfit" (.bool true)
  let rs ← asDict (dget config "retry_settings" (.dict []))
  let max_attempts_per_key := dget rs "max_attempts_per_key" (.int 3)
  let enable_smart_retry := dget rs "enable_smart_retry" (.bool true)
  let total_timeout := dget rs "total_timeout" (.int 120)
  let rls ← asDict (dget config "rate_limit_settings" (.dict []))
  let rate_limit_enabled := dget rls "enabled" (.bool true)
  let rate_limit_max_requests := dget rls "max_requests" (.int 5)
  let rate_limit_period := dget rls "period_seconds" (.int 60)
  return ⟨provider_id, api_type, model, api_keys, endpoint_id, api_base, default_size,
    watermark, optimize_prompt_mode, resolution, aspect_ratio, persona_reference_image,
    enable_auto_outfit, max_attempts_per_key, enable_smart_retry, total_timeout,
    rate_limit_enabled, rate_limit_max_requests, rate_limit_period⟩

/-- The five top-level section keys read by `_load_config`. -/
def sectionKeys : List String :=
  ["api_settings", "image_generation_settings", "persona_settings",
   "retry_settings", "rate_limit_settings"]

/-- Every top-level section that is present is itself a mapping — the shape on
which `_load_config` cannot raise. -/
def sectionsWellFormed (config : List (String × PyVal)) : Bool :=
  sectionKeys.all fun k =>
    match alistLookup config k with
    | some v => (asDict v).isSome
    | Option.none => true

/-! ## ApiClient (`src/core/api_client.py`) -/

/-- The fields of `ApiClient` relevant to its observable results. -/
structure ApiClient where
  api_keys : List String
  api_base : String
  endpoint_id : String

/-- A run of digits of length 3 to 5 (one side of the `WxH` pattern). -/
def digitRun (l : List Char) : Bool :=
  decide (3 ≤ l.length) && decide (l.length ≤ 5) && l.all isDigitB

/-- Matching of the anchored regular expression `\d{3,5}x\d{3,5}` (ASCII):
a maximal leading digit run of length 3-5, an `x`, then 3-5 digits to the end.
Because the character after the first run must be `x`, the greedy split is
equivalent to the backtracking regular-expression search. -/
def isWxHChars (l : List Char) : Bool :=
  match l.dropWhile isDigitB with
  | x :: b => x = 'x' && digitRun (l.takeWhile isDigitB) && digitRun b
  | [] => false

/-- String-level `WxH` test. -/
def isWxH (s : String) : Bool := isWxHChars s.data

/-- The normalization applied before matching: strip, lower-case, remove
spaces (lines 135-139). -/
def normalizeRes (s : String) : String := removeSpaces (pyLower (pyStrip s))

/-- Model of `ApiClient._map_resolution` (lines 130-155), with the local
`raw`/`normalized` bindings inlined (`normalized = removeSpaces (pyLower
(pyStrip resolution))`, exactly the code's strip-lower-replace chain).  The
code also computes `model_lower` from the `model` argument but never uses it;
being a pure dead local it is omitted, and the `model` parameter is kept. -/
def ApiClient._map_resolution (resolution model : String) : String :=
  if resolution = "" then "2K"
  else if pyStrip resolution = "" then "2K"
  else if isWxH (normalizeRes resolution) then normalizeRes resolution
  else if normalizeRes resolution = "1k" ∨ normalizeRes resolution = "1024" then "1K"
  else if normalizeRes resolution = "2k" ∨ normalizeRes resolution = "2048" then "2K"
  else if normalizeRes resolution = "4k" ∨ normalizeRes resolution = "4096" then "4K"
  else "2K"

/-- What the transport produced for the single HTTP POST: either an exception
raised while issuing the request or reading/parsing the response (its text is
carried), or a response with a status code, its body text, and the result of
`response.json()` (which itself may raise). -/
inductive ApiOutcome where
  | exn (msg : String)
  | resp (status : Nat) (text : String) (json : Except String PyVal)

/-- `p` is a leading block of `s` (character-list form). -/
def startsWithChars : List Char → List Char → Bool
  | [], _ => true
  | _ :: _, [] => false
  | p :: ps, c :: cs => p = c && startsWithChars ps cs

/-- `pat` occurs somewhere in the list. -/
def containsChars (pat : List Char) : List Char → Bool
  | [] => startsWithChars pat []
  | c :: cs => startsWithChars pat (c :: cs) || containsChars pat cs

/-- Python `pat in s` on strings: the substring test. -/
def containsSub (pat s : String) : Bool := containsChars pat.data s.data

/-- Python `t in l` on a list of arbitrary values compared against the string
`t`: equality holds only for equal strings (a non-string never equals `t`). -/
def elemStr (l : List PyVal) (t : String) : Bool :=
  l.any fun v =>
    match v with
    | .str s => s = t
    | _ => false

/-- Lines 111-119: extract image locators from the `data` array.  A dict item
with a `url` key contributes its value; otherwise a dict item with a `b64_json`
key is decoded and written to disk by `_save_base64_image` — that filesystem
effect is abstracted by the oracle `saveB64`, whose empty-string answer (the
code's failure sentinel) drops the item.  For a string item, `'url' in item`
is Python's substring test: a hit makes the subsequent `item['url']` indexing
raise `TypeError` (modelled as an error), a miss skips the item; likewise for
a list item with the membership test.  Other non-dict items make the
membership test itself raise `TypeError`. -/
def collectImageUrls (saveB64 : PyVal → String) : List PyVal → Except String (List PyVal)
  | [] => .ok []
  | .dict kvs :: rest =>
    (match collectImageUrls saveB64 rest with
     | .error e => .error e
     | .ok tail =>
       if hasKey kvs "url" then .ok (dget kvs "url" .none :: tail)
       else if hasKey kvs "b64_json" then
         let path := saveB64 (dget kvs "b64_json" .none)
         if path = "" then .ok tail else .ok (.str path :: tail)
       else .ok tail)
  | .str s :: rest =>
    if containsSub "url" s then .error "TypeError"
    else if containsSub "b64_json" s then .error "TypeError"
    else collectImageUrls saveB64 rest
  | .list l :: rest =>
    if elemStr l "url" then .error "TypeError"
    else if elemStr l "b64_json" then .error "TypeError"
    else collectImageUrls saveB64 rest
  | _ :: _ => .error "TypeError"

/-- Lines 107-108: `if 'data' not in data or not data['data']` followed by the
iteration `for item in data['data']`.  On a dict body, a truthy `data` field is
iterated: a list yields its items, a string yields its characters as
one-character strings, a dict yields its keys, and any other value raises
`TypeError`.  On a string body, `'data' in data` is the substring test — a hit
makes `data['data']` raise `TypeError`, a miss takes the format-error branch;
on a list body it is the membership test.  Any other body makes the membership
test itself raise `TypeError`.  `.ok none` is the format-error branch. -/
def dataItems : PyVal → Except String (Option (List PyVal))
  | .dict kvs =>
    (match alistLookup kvs "data" with
     | Option.none => .ok Option.none
     | some v =>
       if v.truthy then
         match v with
         | .list items => .ok (some items)
         | .str s => .ok (some (s.data.map fun c => PyVal.str (String.singleton c)))
         | .dict kvs' => .ok (some (kvs'.map fun p => PyVal.str p.1))
         | _ => .error "TypeError"
       else .ok Option.none)
  | .str s => if containsSub "data" s then .error "TypeError" else .ok Option.none
  | .list l => if elemStr l "data" then .error "TypeError" else .ok Option.none
  | _ => .error "TypeError"

/-- Model of `ApiClient.generate_image` (lines 30-128).  The prompt, reference
image and resolution shape only the outbound payload, which the abstract
`outcome` already accounts for; the returned pair is the code's
`(success, result-or-error)`.  Every failure of the transport or of response
processing is converted to a returned failure by the `try/except` of lines
94-128 — the model is total in `outcome`. -/
def ApiClient.generate_image (c : ApiClient) (prompt : String)
    (reference_image : Option String) (resolution : String)
    (outcome : ApiOutcome) (saveB64 : PyVal → String) : Bool × PyVal :=
  if c.api_keys.isEmpty then (false, .str "API密钥未配置")
  else
    match outcome with
    | .exn e => (false, .str ("API请求异常: " ++ e))
    | .resp status text json =>
      if status ≠ 200 then
        (false, .str ("API请求失败: " ++ toString status ++ " - " ++ text))
      else
        match json with
        | .error e => (false, .str ("API请求异常: " ++ e))
        | .ok data =>
          match dataItems data with
          | .error e => (false, .str ("API请求异常: " ++ e))
          | .ok Option.none => (false, .str "API返回格式错误")
          | .ok (some items) =>
            match collectImageUrls saveB64 items with
            | .error e => (false, .str ("API请求异常: " ++ e))
            | .ok [] => (false, .str "未生成图像")
            | .ok (u :: _) => (true, u)

/-! ## Concrete configurations used by witnesses and counterexamples -/

/-- A configuration whose doubao override carries `api_keys: [" a ", "", "b"]`. -/
def cfgListKeys : List (String × PyVal) :=
  [("api_settings", .dict [("provider_overrides", .list
    [.dict [("__template_key", .str "doubao"),
            ("api_keys", .list [.str " a ", .str "", .str "b"])]])])]

/-- A configuration whose doubao override carries only the legacy
`api_key: " x "`. -/
def cfgScalarKey : List (String × PyVal) :=
  [("api_settings", .dict [("provider_overrides", .list
    [.dict [("__template_key", .str "doubao"), ("api_key", .str " x ")]])])]

/-- A configuration whose doubao override carries neither key field. -/
def cfgNoKeys : List (String × PyVal) :=
  [("api_settings", .dict [("provider_overrides", .list
    [.dict [("__template_key", .str "doubao"), ("watermark", .bool true)]])])]

/-- A configuration whose doubao override carries a duplicated API key. -/
def cfgDup : List (String × PyVal) :=
  [("api_settings", .dict [("provider_overrides", .list
    [.dict [("__template_key", .str "doubao"),
            ("api_keys", .list [.str "a", .str "a"])]])])]

/-! ## Helper lemmas on the string models -/

theorem dropWhile_eq_self_of_forall {p : Char → Bool} {l : List Char}
    (h : ∀ c ∈ l, p c = false) : l.dropWhile p = l := by
  cases l with
  | nil => rfl
  | cons c cs =>
    exact List.dropWhile_cons_of_neg (by simp [h c (List.mem_cons_self c cs)])

theorem dropWhile_head_not {p : Char → Bool} :
    ∀ {l : List Char} {a : Char}, (l.dropWhile p).head? = some a → p a = false := by
  intro l
  induction l with
  | nil => intro a h; simp [List.dropWhile] at h
  | cons c cs ih =>
    intro a h
    by_cases hc : p c
    · rw [List.dropWhile_cons_of_pos hc] at h
      exact ih h
    · rw [List.dropWhile_cons_of_neg hc] at h
      simp only [List.head?_cons, Option.some.injEq] at h
      subst h
      exact Bool.eq_false_iff.mpr hc

theorem dropWhile_eq_self_of_head {p : Char → Bool} {l : List Char}
    (h : ∀ a, l.head? = some a → p a = false) : l.dropWhile p = l := by
  cases l with
  | nil => rfl
  | cons c cs =>
    exact List.dropWhile_cons_of_neg (by simp [h c rfl])

theorem stripChars_head_not {l : List Char} {a : Char}
    (h : (stripChars l).head? = some a) : pySpace a = false := by
  unfold stripChars at h
  rw [List.head?_reverse] at h
  -- the last element of `dropWhile pySpace (reverse (dropWhile pySpace l))`
  -- is the last element of `reverse (dropWhile pySpace l)`, i.e. the head of
  -- `dropWhile pySpace l`
  set A := l.dropWhile pySpace with hA
  set B := A.reverse.dropWhile pySpace with hB
  have hBne : B ≠ [] := by
    intro hnil
    rw [hnil] at h
    simp at h
  have hsplit : A.reverse.takeWhile pySpace ++ B = A.reverse := by
    rw [hB]; exact List.takeWhile_append_dropWhile pySpace A.reverse
  have hlast : A.reverse.getLast? = some a := by
    rw [← hsplit, List.getLast?_append]
    have : B.getLast? = some a := h
    rw [this]
    rfl
  rw [List.getLast?_reverse] at hlast
  exact dropWhile_head_not (l := l) hlast

theorem stripChars_getLast_not {l : List Char} {a : Char}
    (h : (stripChars l).getLast? = some a) : pySpace a = false := by
  unfold stripChars at h
  rw [List.getLast?_reverse] at h
  exact dropWhile_head_not h

theorem stripChars_idem (l : List Char) : stripChars (stripChars l) = stripChars l := by
  have h1 : (stripChars l).dropWhile pySpace = stripChars l :=
    dropWhile_eq_self_of_head fun a ha => stripChars_head_not ha
  have h2 : (stripChars l).reverse.dropWhile pySpace = (stripChars l).reverse := by
    refine dropWhile_eq_self_of_head fun a ha => ?_
    rw [List.head?_reverse] at ha
    exact stripChars_getLast_not ha
  show (((stripChars l).dropWhile pySpace).reverse.dropWhile pySpace).reverse = stripChars l
  rw [h1, h2, List.reverse_reverse]

theorem pyStrip_idem (s : String) : pyStrip (pyStrip s) = pyStrip s := by
  show (⟨stripChars (String.data ⟨stripChars s.data⟩)⟩ : String) = ⟨stripChars s.data⟩
  rw [show String.data ⟨stripChars s.data⟩ = stripChars s.data from rfl, stripChars_idem]

/-! ## Lemmas about the resolution mapping -/

theorem isDigitB_bounds {c : Char} (h : isDigitB c = true) :
    48 ≤ c.toNat ∧ c.toNat ≤ 57 := by
  unfold isDigitB at h
  rw [Bool.and_eq_true, decide_eq_true_eq, decide_eq_true_eq] at h
  exact h

/-- Characters appearing in a `WxH` token (digits and `x`) are untouched by
lower-casing, are not whitespace, and are not spaces. -/
theorem wxhChar_fix {c : Char} (h : isDigitB c = true ∨ c = 'x') :
    lowerChar c = c ∧ pySpace c = false ∧ c ≠ ' ' := by
  rcases h with hd | hx
  · obtain ⟨h1, h2⟩ := isDigitB_bounds hd
    have hne : ∀ d : Char, d.toNat < 48 → c ≠ d := by
      intro d hdlt he
      subst he
      omega
    refine ⟨?_, ?_, hne ' ' (by decide)⟩
    · unfold lowerChar
      rw [if_neg]
      omega
    · unfold pySpace
      simp only [Bool.or_eq_false_iff, decide_eq_false_iff_not]
      exact ⟨⟨⟨⟨⟨hne ' ' (by decide), hne '\t' (by decide)⟩, hne '\n' (by decide)⟩,
        hne '\x0b' (by decide)⟩, hne '\x0c' (by decide)⟩, hne '\r' (by decide)⟩
  · subst hx
    exact ⟨by decide, by decide, by decide⟩

/-- Destructing a successful `WxH` match: the list splits as a 3-5 digit run,
an `x`, and a 3-5 digit run. -/
theorem isWxHChars_split {l : List Char} (h : isWxHChars l = true) :
    ∃ b, l.dropWhile isDigitB = 'x' :: b ∧
      digitRun (l.takeWhile isDigitB) = true ∧ digitRun b = true := by
  unfold isWxHChars at h
  rcases hd : l.dropWhile isDigitB with _ | ⟨x, b⟩
  · rw [hd] at h; exact absurd h (by simp)
  · rw [hd] at h
    simp only [Bool.and_eq_true, decide_eq_true_eq] at h
    obtain ⟨⟨hx, ha⟩, hb⟩ := h
    subst hx
    exact ⟨b, rfl, ha, hb⟩

/-- Every character of a list passing the `WxH` test is a digit or `x`. -/
theorem mem_isWxHChars {l : List Char} (h : isWxHChars l = true) :
    ∀ c ∈ l, isDigitB c = true ∨ c = 'x' := by
  obtain ⟨b, hd, ha, hb⟩ := isWxHChars_split h
  intro c hc
  have hsplit : l.takeWhile isDigitB ++ 'x' :: b = l := by
    rw [← hd]; exact List.takeWhile_append_dropWhile isDigitB l
  rw [← hsplit] at hc
  rcases List.mem_append.mp hc with h1 | h2
  · exact Or.inl (List.mem_takeWhile_imp h1)
  · rcases List.mem_cons.mp h2 with h3 | h4
    · exact Or.inr h3
    · unfold digitRun at hb
      rw [Bool.and_eq_true, Bool.and_eq_true] at hb
      exact Or.inl ((List.all_eq_true.mp hb.2) c h4)

/-- A list passing the `WxH` test is nonempty. -/
theorem isWxHChars_ne_nil {l : List Char} (h : isWxHChars l = true) : l ≠ [] := by
  intro he
  subst he
  simp [isWxHChars, List.dropWhile] at h

/-- A `WxH` token is a fixed point of every normalization step and of the full
normalization, and it is not empty. -/
theorem wxh_fix {w : String} (h : isWxH w = true) :
    pyStrip w = w ∧ pyLower w = w ∧ removeSpaces w = w ∧ normalizeRes w = w ∧ w ≠ "" := by
  obtain ⟨l⟩ := w
  have hmem := mem_isWxHChars (l := l) h
  have hfix : ∀ c ∈ l, lowerChar c = c ∧ pySpace c = false ∧ c ≠ ' ' :=
    fun c hc => wxhChar_fix (hmem c hc)
  have hstrip : stripChars l = l := by
    unfold stripChars
    rw [dropWhile_eq_self_of_forall (fun c hc => (hfix c hc).2.1),
      dropWhile_eq_self_of_forall (fun c hc => (hfix c (List.mem_reverse.mp hc)).2.1),
      List.reverse_reverse]
  have hlower : l.map lowerChar = l := by
    have : l.map lowerChar = l.map id := List.map_congr_left fun c hc => (hfix c hc).1
    rw [this, List.map_id]
  have hspaces : l.filter (fun c => c ≠ ' ') = l :=
    List.filter_eq_self.mpr fun c hc => decide_eq_true (hfix c hc).2.2
  have h1 : pyStrip ⟨l⟩ = ⟨l⟩ := congrArg String.mk hstrip
  have h2 : pyLower ⟨l⟩ = ⟨l⟩ := congrArg String.mk hlower
  have h3 : removeSpaces ⟨l⟩ = ⟨l⟩ := congrArg String.mk hspaces
  refine ⟨h1, h2, h3, ?_, ?_⟩
  · unfold normalizeRes
    rw [h1, h2, h3]
  · intro he
    exact isWxHChars_ne_nil h (congrArg String.data he)

/-- The `WxH` branch: whenever the normalized input matches the pattern, the
mapping returns exactly the normalized token. -/
theorem mapResolution_passthrough (s m : String) (h : isWxH (normalizeRes s) = true) :
    ApiClient._map_resolution s m = normalizeRes s := by
  unfold ApiClient._map_resolution
  have hs : s ≠ "" := by
    intro he
    rw [he] at h
    exact absurd h (by decide)
  have hraw : pyStrip s ≠ "" := by
    intro he
    unfold normalizeRes at h
    rw [he] at h
    exact absurd h (by decide)
  rw [if_neg hs, if_neg hraw, if_pos h]

/-- The `1K` class: every input normalizing to `1k` or `1024` maps to `"1K"`. -/
theorem mapResolution_1k (s m : String)
    (h : normalizeRes s = "1k" ∨ normalizeRes s = "1024") :
    ApiClient._map_resolution s m = "1K" := by
  have hne : normalizeRes s ≠ "" := by
    rcases h with h | h <;> rw [h] <;> decide
  have hs : s ≠ "" := by
    intro he
    rw [he] at hne
    exact hne rfl
  have hraw : pyStrip s ≠ "" := by
    intro he
    apply hne
    unfold normalizeRes
    rw [he]
    decide
  have hwxh : ¬(isWxH (normalizeRes s) = true) := by
    rcases h with h | h <;> rw [h] <;> decide
  unfold ApiClient._map_resolution
  rw [if_neg hs, if_neg hraw, if_neg hwxh, if_pos h]

/-- The `2K` class: every input normalizing to `2k` or `2048` maps to `"2K"`. -/
theorem mapResolution_2k (s m : String)
    (h : normalizeRes s = "2k" ∨ normalizeRes s = "2048") :
    ApiClient._map_resolution s m = "2K" := by
  have hne : normalizeRes s ≠ "" := by
    rcases h with h | h <;> rw [h] <;> decide
  have hs : s ≠ "" := by
    intro he
    rw [he] at hne
    exact hne rfl
  have hraw : pyStrip s ≠ "" := by
    intro he
    apply hne
    unfold normalizeRes
    rw [he]
    decide
  have hwxh : ¬(isWxH (normalizeRes s) = true) := by
    rcases h with h | h <;> rw [h] <;> decide
  have h1 : ¬(normalizeRes s = "1k" ∨ normalizeRes s = "1024") := by
    rcases h with h | h <;> rw [h] <;> decide
  unfold ApiClient._map_resolution
  rw [if_neg hs, if_neg hraw, if_neg hwxh, if_neg h1, if_pos h]

/-- The `4K` class: every input normalizing to `4k` or `4096` maps to `"4K"`. -/
theorem mapResolution_4k (s m : String)
    (h : normalizeRes s = "4k" ∨ normalizeRes s = "4096") :
    ApiClient._map_resolution s m = "4K" := by
  have hne : normalizeRes s ≠ "" := by
    rcases h with h | h <;> rw [h] <;> decide
  have hs : s ≠ "" := by
    intro he
    rw [he] at hne
    exact hne rfl
  have hraw : pyStrip s ≠ "" := by
    intro he
    apply hne
    unfold normalizeRes
    rw [he]
    decide
  have hwxh : ¬(isWxH (normalizeRes s) = true) := by
    rcases h with h | h <;> rw [h] <;> decide
  have h1 : ¬(normalizeRes s = "1k" ∨ normalizeRes s = "1024") := by
    rcases h with h | h <;> rw [h] <;> decide
  have h2 : ¬(normalizeRes s = "2k" ∨ normalizeRes s = "2048") := by
    rcases h with h | h <;> rw [h] <;> decide
  unfold ApiClient._map_resolution
  rw [if_neg hs, if_neg hraw, if_neg hwxh, if_neg h1, if_neg h2, if_pos h]

/-- The default rule: every input that neither normalizes to a `WxH` token nor
to one of the six recognized tokens maps to `"2K"` — including the empty
string, which falls under the first guard. -/
theorem mapResolution_default (s m : String)
    (hw : isWxH (normalizeRes s) = false)
    (h1 : normalizeRes s ≠ "1k") (h2 : normalizeRes s ≠ "1024")
    (h3 : normalizeRes s ≠ "2k") (h4 : normalizeRes s ≠ "2048")
    (h5 : normalizeRes s ≠ "4k") (h6 : normalizeRes s ≠ "4096") :
    ApiClient._map_resolution s m = "2K" := by
  unfold ApiClient._map_resolution
  by_cases hs : s = ""
  · rw [if_pos hs]
  · rw [if_neg hs]
    by_cases hraw : pyStrip s = ""
    · rw [if_pos hraw]
    · rw [if_neg hraw, if_neg (by simp [hw]), if_neg (by tauto), if_neg (by tauto),
        if_neg (by tauto)]

/-- The result of the mapping is always in the documented vocabulary. -/
theorem mapResolution_shape (s m : String) :
    ApiClient._map_resolution s m = "1K" ∨ ApiClient._map_resolution s m = "2K" ∨
      ApiClient._map_resolution s m = "4K" ∨ isWxH (ApiClient._map_resolution s m) = true := by
  unfold ApiClient._map_resolution
  split
  · exact Or.inr (Or.inl rfl)
  · split
    · exact Or.inr (Or.inl rfl)
    · split
      · next hwxh => exact Or.inr (Or.inr (Or.inr hwxh))
      · split
        · exact Or.inl rfl
        · split
          · exact Or.inr (Or.inl rfl)
          · split
            · exact Or.inr (Or.inr (Or.inl rfl))
            · exact Or.inr (Or.inl rfl)

/-- The mapping is idempotent. -/
theorem mapResolution_idem (s m : String) :
    ApiClient._map_resolution (ApiClient._map_resolution s m) m =
      ApiClient._map_resolution s m := by
  rcases mapResolution_shape s m with h | h | h | h
  · rw [h]; rfl
  · rw [h]; rfl
  · rw [h]; rfl
  · have hfix := wxh_fix h
    have hnorm : normalizeRes (ApiClient._map_resolution s m) = ApiClient._map_resolution s m :=
      hfix.2.2.2.1
    rw [mapResolution_passthrough _ m (by rw [hnorm]; exact h), hnorm]

/-! ## Lemmas about the configuration loader -/

/-- Case of line 37-41: the doubao override carries a list `api_keys` field. -/
theorem computeApiKeys_list {d : List (String × PyVal)} {vs : List PyVal}
    (h : alistLookup d "api_keys" = some (.list vs)) :
    computeApiKeys d = cleanKeys vs := by
  unfold computeApiKeys
  rw [if_pos (by simp [hasKey, h])]
  unfold pyOrList
  rw [show dget d "api_keys" .none = .list vs by simp [dget, h]]
  by_cases hvs : vs.isEmpty
  · rw [List.isEmpty_iff] at hvs
    subst hvs
    rfl
  · simp [PyVal.truthy, hvs]

/-- Case of line 42-45: only the legacy scalar `api_key` field is present. -/
theorem computeApiKeys_scalar {d : List (String × PyVal)} {t : String}
    (h1 : alistLookup d "api_keys" = Option.none)
    (h2 : alistLookup d "api_key" = some (.str t)) :
    computeApiKeys d = if pyStrip t = "" then [] else [pyStrip t] := by
  unfold computeApiKeys
  rw [if_neg (by simp [hasKey, h1]), h2]

/-- Neither key field present: the initial empty list survives. -/
theorem computeApiKeys_neither {d : List (String × PyVal)}
    (h1 : alistLookup d "api_keys" = Option.none)
    (h2 : alistLookup d "api_key" = Option.none) :
    computeApiKeys d = [] := by
  unfold computeApiKeys
  rw [if_neg (by simp [hasKey, h1]), h2]

/-- Every key produced by the normalization is nonempty and already trimmed. -/
theorem computeApiKeys_clean (d : List (String × PyVal)) :
    ∀ k ∈ computeApiKeys d, k ≠ "" ∧ pyStrip k = k := by
  intro k hk
  unfold computeApiKeys at hk
  by_cases hhas : hasKey d "api_keys"
  · rw [if_pos hhas] at hk
    rcases hor : pyOrList (dget d "api_keys" .none) with _ | vs
    · rw [hor] at hk
      exact absurd hk (by simp)
    · rw [hor] at hk
      unfold cleanKeys at hk
      obtain ⟨v, hv, heq⟩ := List.mem_filterMap.mp hk
      rcases v with _ | b | n | t | l | kvs
      · exact absurd heq (by simp)
      · exact absurd heq (by simp)
      · exact absurd heq (by simp)
      · have heq' : (if pyStrip t = "" then Option.none else some (pyStrip t)) = some k := heq
        by_cases ht : pyStrip t = ""
        · rw [if_pos ht] at heq'
          exact absurd heq' (by simp)
        · rw [if_neg ht] at heq'
          obtain rfl := Option.some.inj heq'
          exact ⟨ht, pyStrip_idem t⟩
      · exact absurd heq (by simp)
      · exact absurd heq (by simp)
  · rw [if_neg hhas] at hk
    rcases hl : alistLookup d "api_key" with _ | v
    · rw [hl] at hk
      exact absurd hk (by simp)
    · rw [hl] at hk
      rcases v with _ | b | n | t | l | kvs
      · exact absurd hk (by simp)
      · exact absurd hk (by simp)
      · exact absurd hk (by simp)
      · have hk' : k ∈ (if pyStrip t = "" then ([] : List String) else [pyStrip t]) := hk
        by_cases ht : pyStrip t = ""
        · rw [if_pos ht] at hk'
          exact absurd hk' (by simp)
        · rw [if_neg ht] at hk'
          obtain rfl : k = pyStrip t := by simpa using hk'
          exact ⟨ht, pyStrip_idem t⟩
      · exact absurd hk (by simp)
      · exact absurd hk (by simp)

/-- Inversion of a successful `loadConfig`: its `api_keys` field comes from
`computeApiKeys` on the matched doubao override. -/
theorem loadConfig_api_keys {config : List (String × PyVal)} {s : ConfigSettings}
    (h : loadConfig config = some s) :
    ∃ as, asDict (dget config "api_settings" (.dict [])) = some as ∧
      s.api_keys = computeApiKeys
        (findDoubaoOverride (dget as "provider_overrides" (.list []))) := by
  unfold loadConfig at h
  rcases h1 : asDict (dget config "api_settings" (.dict [])) with _ | as <;> rw [h1] at h
  · exact absurd h (by simp)
  rcases h2 : asDict (dget config "image_generation_settings" (.dict [])) with _ | igs <;>
    rw [h2] at h
  · exact absurd h (by simp)
  rcases h3 : asDict (dget config "persona_settings" (.dict [])) with _ | ps <;> rw [h3] at h
  · exact absurd h (by simp)
  rcases h4 : asDict (dget config "retry_settings" (.dict [])) with _ | rs <;> rw [h4] at h
  · exact absurd h (by simp)
  rcases h5 : asDict (dget config "rate_limit_settings" (.dict [])) with _ | rls <;> rw [h5] at h
  · exact absurd h (by simp)
  obtain rfl := Option.some.inj h
  exact ⟨as, rfl, rfl⟩

/-- Under well-formed sections, each section read yields a dict. -/
theorem sectionDict_of_wf {config : List (String × PyVal)}
    (hw : sectionsWellFormed config = true) {k : String} (hk : k ∈ sectionKeys) :
    ∃ a, asDict (dget config k (.dict [])) = some a := by
  have hall := List.all_eq_true.mp hw k hk
  rcases hl : alistLookup config k with _ | v
  · exact ⟨[], by simp [dget, hl, asDict]⟩
  · rw [hl] at hall
    obtain ⟨a, ha⟩ := Option.isSome_iff_exists.mp hall
    exact ⟨a, by simp [dget, hl, ha]⟩

/-! ## Lemmas about the rate limiter -/

theorem mem_pruneL {period now t : ℚ} {l : List ℚ} :
    t ∈ pruneL period now l ↔ t ∈ l ∧ now - t < period := by
  simp [pruneL]

theorem pruneL_eq_self {period now : ℚ} {l : List ℚ} (h : ∀ t ∈ l, now - t < period) :
    pruneL period now l = l :=
  List.filter_eq_self.mpr fun t ht => decide_eq_true (h t ht)

theorem pruneL_sublist {period now : ℚ} {l : List ℚ} :
    List.Sublist (pruneL period now l) l :=
  List.filter_sublist l

/-- The accepting branch of `check_and_consume`. -/
theorem check_eq_allowed {rl : RateLimiter} {key : String} {now : ℚ}
    (h : (pruneL rl.period_seconds now (rl.requests key)).length < rl.max_requests) :
    rl.check_and_consume key now = some ((true, Option.none),
      { rl with requests := fun k =>
          if k = key then pruneL rl.period_seconds now (rl.requests key) ++ [now]
          else rl.requests k }) := by
  unfold RateLimiter.check_and_consume
  rw [if_neg (by omega)]

/-- The rejecting branch of `check_and_consume`. -/
theorem check_eq_rejected {rl : RateLimiter} {key : String} {now m : ℚ}
    (hlen : rl.max_requests ≤ (pruneL rl.period_seconds now (rl.requests key)).length)
    (hmin : (pruneL rl.period_seconds now (rl.requests key)).min? = some m) :
    rl.check_and_consume key now =
      some ((false, some (rejectMessage (pyInt (rl.period_seconds - (now - m))))),
        { rl with requests := fun k =>
            if k = key then pruneL rl.period_seconds now (rl.requests key)
            else rl.requests k }) := by
  unfold RateLimiter.check_and_consume
  rw [if_pos hlen, hmin]

/-- Unfolding a run step whose first call succeeds. -/
theorem runKey_cons_some {rl rl' : RateLimiter} {key : String} {now : ℚ} {rest : List ℚ}
    {r : Bool × Option String} (h : rl.check_and_consume key now = some (r, rl')) :
    runKey rl key (now :: rest) =
      (runKey rl' key rest).map fun p => (r :: p.1, p.2) := by
  simp only [runKey, h]
  rcases hrec : runKey rl' key rest with _ | ⟨rs, rlf⟩ <;> rfl

/-- Running inside a window shorter than the period with enough capacity:
every call is accepted, nothing is ever pruned, and the final list is the
initial list extended by all the call times. -/
theorem runKey_window :
    ∀ (ts : List ℚ) (rl : RateLimiter) (key : String) (lo hi : ℚ),
      (∀ t ∈ rl.requests key, lo ≤ t ∧ t ≤ hi) →
      (∀ t ∈ ts, lo ≤ t ∧ t ≤ hi) →
      hi - lo < rl.period_seconds →
      (rl.requests key).length + ts.length ≤ rl.max_requests →
      ∃ rlf, runKey rl key ts = some (ts.map (fun _ => (true, Option.none)), rlf) ∧
        rlf.requests key = rl.requests key ++ ts ∧
        rlf.max_requests = rl.max_requests ∧ rlf.period_seconds = rl.period_seconds := by
  intro ts
  induction ts with
  | nil =>
    intro rl key lo hi _ _ _ _
    exact ⟨rl, rfl, (List.append_nil _).symm, rfl, rfl⟩
  | cons now rest ih =>
    intro rl key lo hi hl hts hwin hcap
    have hnow := hts now (List.mem_cons_self _ _)
    have hprune : pruneL rl.period_seconds now (rl.requests key) = rl.requests key :=
      pruneL_eq_self fun t ht => by
        have h1 := hl t ht
        have h2 : now - t ≤ hi - lo := by linarith
        linarith
    have hlen : (pruneL rl.period_seconds now (rl.requests key)).length < rl.max_requests := by
      rw [hprune]
      simp only [List.length_cons] at hcap
      omega
    have hstep := check_eq_allowed hlen
    rw [hprune] at hstep
    have h2req : ({ rl with requests := fun k =>
        if k = key then rl.requests key ++ [now] else rl.requests k } :
        RateLimiter).requests key = rl.requests key ++ [now] := by
      simp
    obtain ⟨rlf, hrun, hreq, hmax, hper⟩ :=
      ih { rl with requests := fun k =>
            if k = key then rl.requests key ++ [now] else rl.requests k } key lo hi
        (by
          rw [h2req]
          intro t ht
          rcases List.mem_append.mp ht with h | h
          · exact hl t h
          · rw [List.mem_singleton] at h
            subst h
            exact hnow)
        (fun t ht => hts t (List.mem_cons_of_mem _ ht))
        hwin
        (by
          rw [h2req]
          simp only [List.length_cons] at hcap
          simp only [List.length_append, List.length_singleton]
          omega)
    refine ⟨rlf, ?_, ?_, hmax, hper⟩
    · rw [runKey_cons_some hstep, hrun]
      rfl
    · rw [hreq, h2req]
      simp
/-- Running with enough remaining capacity: every call is accepted and the
final list is a sublist of the initial list extended by the call times. -/
theorem runKey_capacity :
    ∀ (ts : List ℚ) (rl : RateLimiter) (key : String),
      (rl.requests key).length + ts.length ≤ rl.max_requests →
      ∃ bs rlf, runKey rl key ts = some (bs, rlf) ∧
        (∀ r ∈ bs, r.1 = true) ∧
        List.Sublist (rlf.requests key) (rl.requests key ++ ts) ∧
        rlf.max_requests = rl.max_requests ∧ rlf.period_seconds = rl.period_seconds := by
  intro ts
  induction ts with
  | nil =>
    intro rl key _
    exact ⟨[], rl, rfl, by simp, by simp, rfl, rfl⟩
  | cons now rest ih =>
    intro rl key hcap
    have hsub0 : List.Sublist (pruneL rl.period_seconds now (rl.requests key))
        (rl.requests key) := pruneL_sublist
    have hlen : (pruneL rl.period_seconds now (rl.requests key)).length < rl.max_requests := by
      have := hsub0.length_le
      simp only [List.length_cons] at hcap
      omega
    have h2req : ({ rl with requests := fun k =>
                      if k = key then pruneL rl.period_seconds now (rl.requests key) ++ [now]
                      else rl.requests k } : RateLimiter).requests key
        = pruneL rl.period_seconds now (rl.requests key) ++ [now] := by
      simp
    obtain ⟨bs, rlf, hrun, htrue, hsub, hmax, hper⟩ :=
      ih { rl with requests := fun k =>
            if k = key then pruneL rl.period_seconds now (rl.requests key) ++ [now]
            else rl.requests k } key
        (by
          rw [h2req]
          simp only [List.length_cons] at hcap
          simp only [List.length_append, List.length_singleton]
          have := hsub0.length_le
          omega)
    refine ⟨(true, Option.none) :: bs, rlf, ?_, ?_, ?_, hmax, hper⟩
    · rw [runKey_cons_some (check_eq_allowed hlen), hrun]
      rfl
    · intro r hr
      rcases List.mem_cons.mp hr with h | h
      · rw [h]
      · exact htrue r h
    · rw [h2req] at hsub
      refine hsub.trans ?_
      have h1 := hsub0.append_right [now]
      have h2 := h1.append_right rest
      simpa [List.append_assoc] using h2

/-- The settings produced from `cfgDup`: every field keeps its documented
default except `api_keys`, which gets the duplicated key twice. -/
def cfgDupSettings : ConfigSettings :=
  ⟨.str "", .str "doubao", .str "", ["a", "a"], .str "doubao-seedream-4-5-251128",
    .str "https://ark.cn-beijing.volces.com", .str "2K", .bool false, .str "standard",
    .str "1K", .str "1:1", .list [], .bool true, .int 3, .bool true, .int 120,
    .bool true, .int 5, .int 60⟩

/-! ## Claim theorems -/

/-- C2, counterexample: `ConfigLoader` construction is *not* raise-free on
arbitrary mappings — a present top-level section that is not itself a mapping
(here `api_settings: 1`) makes line 13's `.get` raise `AttributeError`,
modelled as `none`. -/
theorem configLoader_raises_on_malformed_section :
    loadConfig [("api_settings", PyVal.int 1)] = Option.none := rfl

/-- C2 (amended): `ConfigLoader` construction succeeds whenever every present
top-level section is itself a mapping (missing sections fall back to
defaults), and an empty mapping yields all documented defaults — in
particular `rate_limit_max_requests = 5`, `rate_limit_period = 60` and
`api_keys = []`. -/
theorem configLoader_wellformed_defaults :
    (∀ config, sectionsWellFormed config = true → (loadConfig config).isSome) ∧
    loadConfig [] = some ⟨.str "", .str "doubao", .str "", [],
      .str "doubao-seedream-4-5-251128", .str "https://ark.cn-beijing.volces.com",
      .str "2K", .bool false, .str "standard", .str "1K", .str "1:1", .list [],
      .bool true, .int 3, .bool true, .int 120, .bool true, .int 5, .int 60⟩ := by
  constructor
  · intro config hw
    obtain ⟨a1, h1⟩ := sectionDict_of_wf hw (k := "api_settings") (by simp [sectionKeys])
    obtain ⟨a2, h2⟩ := sectionDict_of_wf hw (k := "image_generation_settings")
      (by simp [sectionKeys])
    obtain ⟨a3, h3⟩ := sectionDict_of_wf hw (k := "persona_settings") (by simp [sectionKeys])
    obtain ⟨a4, h4⟩ := sectionDict_of_wf hw (k := "retry_settings") (by simp [sectionKeys])
    obtain ⟨a5, h5⟩ := sectionDict_of_wf hw (k := "rate_limit_settings") (by simp [sectionKeys])
    simp [loadConfig, h1, h2, h3, h4, h5]
  · rfl

/-- C2 witness: a configuration with a well-formed section loads successfully. -/
theorem configLoader_wellformed_defaults_witness :
    (loadConfig [("retry_settings", PyVal.dict [("total_timeout", PyVal.int 30)])]).isSome :=
  configLoader_wellformed_defaults.1 _ (by decide)

/-- C3 (code bug): with `max_requests = 0` the pruned list is empty yet the
rejection branch is taken, so line 22 evaluates `min([])` and raises
`ValueError` (modelled `none`) instead of returning a rejection; with
`max_requests ≥ 1` the first request for an unknown key is always allowed. -/
theorem zero_max_requests_raises :
    (freshLimiter 0 60).check_and_consume "user" 0 = Option.none ∧
    (∀ (p : ℚ) (key : String) (now : ℚ),
      (freshLimiter 0 p).check_and_consume key now = Option.none) ∧
    (∀ (n : Nat) (p : ℚ) (key : String) (now : ℚ), 1 ≤ n →
      ∃ rl', (freshLimiter n p).check_and_consume key now = some ((true, Option.none), rl')) := by
  refine ⟨rfl, fun p key now => rfl, fun n p key now hn => ?_⟩
  exact ⟨_, check_eq_allowed (by simpa [freshLimiter, pruneL] using hn)⟩

/-- C3 witness: a fresh limiter with `max_requests = 1` accepts a first call. -/
theorem zero_max_requests_raises_witness :
    ∃ rl', (freshLimiter 1 30).check_and_consume "alice" 7 =
      some ((true, Option.none), rl') :=
  zero_max_requests_raises.2.2 1 30 "alice" 7 (by decide)

/-- C5, counterexample: the produced `api_keys` list is *not* deduplicated —
a doubao override carrying `api_keys: ["a", "a"]` yields `["a", "a"]`. -/
theorem apiKeys_duplicates_preserved :
    (loadConfig cfgDup).map ConfigSettings.api_keys = some ["a", "a"] ∧
    ¬ (["a", "a"] : List String).Nodup := ⟨rfl, by decide⟩

/-- C5 (amended): for every input configuration that loads, `api_keys` is a
list of non-empty trimmed strings (no empty entries, no leading or trailing
whitespace); duplicates are preserved, and the empty list is a valid state. -/
theorem apiKeys_trimmed_nonempty (config : List (String × PyVal)) (s : ConfigSettings)
    (h : loadConfig config = some s) : ∀ k ∈ s.api_keys, k ≠ "" ∧ pyStrip k = k := by
  obtain ⟨as, _, hkeys⟩ := loadConfig_api_keys h
  rw [hkeys]
  exact computeApiKeys_clean _

/-- C5 witness: applied to the duplicated-key configuration. -/
theorem apiKeys_trimmed_nonempty_witness : "a" ≠ "" ∧ pyStrip "a" = "a" :=
  apiKeys_trimmed_nonempty cfgDup cfgDupSettings rfl "a" (by decide)

/-- C6: API-key normalization — a list field has each element trimmed with
empty strings discarded; the legacy scalar field yields its trimmed value as a
one-element list (empty after trimming yields `[]`); neither field yields
`[]`.  The concrete conjuncts run the full loader on the spec's examples. -/
theorem apiKeys_normalization :
    (∀ (d : List (String × PyVal)) (vs : List PyVal),
      alistLookup d "api_keys" = some (.list vs) → computeApiKeys d = cleanKeys vs) ∧
    (∀ (d : List (String × PyVal)) (t : String),
      alistLookup d "api_keys" = Option.none → alistLookup d "api_key" = some (.str t) →
      computeApiKeys d = if pyStrip t = "" then [] else [pyStrip t]) ∧
    (∀ d : List (String × PyVal),
      alistLookup d "api_keys" = Option.none → alistLookup d "api_key" = Option.none →
      computeApiKeys d = []) ∧
    cleanKeys [.str " a ", .str "", .str "b"] = ["a", "b"] ∧
    (loadConfig cfgListKeys).map ConfigSettings.api_keys = some ["a", "b"] ∧
    (loadConfig cfgScalarKey).map ConfigSettings.api_keys = some ["x"] ∧
    (loadConfig cfgNoKeys).map ConfigSettings.api_keys = some [] :=
  ⟨fun _ _ h => computeApiKeys_list h, fun _ _ h1 h2 => computeApiKeys_scalar h1 h2,
   fun _ h1 h2 => computeApiKeys_neither h1 h2, rfl, rfl, rfl, rfl⟩

/-- C6 witness: the list-field case applied to the spec's example. -/
theorem apiKeys_normalization_witness :
    computeApiKeys [("api_keys", PyVal.list [PyVal.str " a ", PyVal.str "", PyVal.str "b"])] =
      cleanKeys [PyVal.str " a ", PyVal.str "", PyVal.str "b"] :=
  apiKeys_normalization.1 _ _ rfl

/-- C4: the resolution mapping is total (it is a function), idempotent, its
result is always exactly one of the vocabulary `{normalized WxH, "1K", "2K",
"4K"}`; a normalized `WIDTHxHEIGHT` token (3-5 digits each side) passes
through; every input normalizing (strip, lower-case, space removal — the
case- and whitespace-insensitivity) to `1k`/`1024` maps to `"1K"`, to
`2k`/`2048` maps to `"2K"`, to `4k`/`4096` maps to `"4K"`; and *every other*
input — no `WxH` match, none of the six tokens — maps to `"2K"`, including the
empty string.  The final conjunct checks the spec's concrete examples. -/
theorem resolution_mapping_total :
    (∀ s m, ApiClient._map_resolution (ApiClient._map_resolution s m) m =
      ApiClient._map_resolution s m) ∧
    (∀ s m, ApiClient._map_resolution s m = "1K" ∨ ApiClient._map_resolution s m = "2K" ∨
      ApiClient._map_resolution s m = "4K" ∨ isWxH (ApiClient._map_resolution s m) = true) ∧
    (∀ s m, isWxH (normalizeRes s) = true →
      ApiClient._map_resolution s m = normalizeRes s) ∧
    (∀ s m, normalizeRes s = "1k" ∨ normalizeRes s = "1024" →
      ApiClient._map_resolution s m = "1K") ∧
    (∀ s m, normalizeRes s = "2k" ∨ normalizeRes s = "2048" →
      ApiClient._map_resolution s m = "2K") ∧
    (∀ s m, normalizeRes s = "4k" ∨ normalizeRes s = "4096" →
      ApiClient._map_resolution s m = "4K") ∧
    (∀ s m, isWxH (normalizeRes s) = false →
      normalizeRes s ≠ "1k" → normalizeRes s ≠ "1024" →
      normalizeRes s ≠ "2k" → normalizeRes s ≠ "2048" →
      normalizeRes s ≠ "4k" → normalizeRes s ≠ "4096" →
      ApiClient._map_resolution s m = "2K") ∧
    (∀ m, ApiClient._map_resolution "1k" m = "1K" ∧ ApiClient._map_resolution "1024" m = "1K" ∧
      ApiClient._map_resolution "2k" m = "2K" ∧ ApiClient._map_resolution "2048" m = "2K" ∧
      ApiClient._map_resolution "4k" m = "4K" ∧ ApiClient._map_resolution "4096" m = "4K" ∧
      ApiClient._map_resolution " 800X600 " m = "800x600" ∧
      ApiClient._map_resolution "" m = "2K" ∧ ApiClient._map_resolution "weird" m = "2K") :=
  ⟨mapResolution_idem, mapResolution_shape, mapResolution_passthrough,
   mapResolution_1k, mapResolution_2k, mapResolution_4k, mapResolution_default,
   fun _ => ⟨rfl, rfl, rfl, rfl, rfl, rfl, rfl, rfl, rfl⟩⟩

/-- C4 witness: the pass-through case on the spec's example, one instance of
each translation class (with whitespace and upper case), and the default
rule on `"weird"`. -/
theorem resolution_mapping_total_witness :
    ApiClient._map_resolution " 800X600 " "doubao-seedream-4-5-251128" =
        normalizeRes " 800X600 " ∧
    ApiClient._map_resolution " 1K " "m" = "1K" ∧
    ApiClient._map_resolution "2048" "m" = "2K" ∧
    ApiClient._map_resolution " 4K " "m" = "4K" ∧
    ApiClient._map_resolution "weird" "m" = "2K" :=
  ⟨resolution_mapping_total.2.2.1 " 800X600 " "doubao-seedream-4-5-251128" (by decide),
   resolution_mapping_total.2.2.2.1 " 1K " "m" (Or.inl (by decide)),
   resolution_mapping_total.2.2.2.2.1 "2048" "m" (Or.inr (by decide)),
   resolution_mapping_total.2.2.2.2.2.1 " 4K " "m" (Or.inl (by decide)),
   resolution_mapping_total.2.2.2.2.2.2.1 "weird" "m" (by decide) (by decide) (by decide)
     (by decide) (by decide) (by decide) (by decide)⟩

/-- C7: whenever `check_and_consume` rejects, the message reports the wait
time `period - (now - oldest)` rounded down to whole seconds, where `oldest`
is the minimum timestamp still retained for the key. -/
theorem reject_message_wait (rl : RateLimiter) (key : String) (now : ℚ) (msg : String)
    (rl' : RateLimiter)
    (h : rl.check_and_consume key now = some ((false, some msg), rl')) :
    ∃ m, (pruneL rl.period_seconds now (rl.requests key)).min? = some m ∧
      m ∈ pruneL rl.period_seconds now (rl.requests key) ∧
      (∀ x ∈ pruneL rl.period_seconds now (rl.requests key), m ≤ x) ∧
      now - m < rl.period_seconds ∧
      msg = rejectMessage ⌊rl.period_seconds - (now - m)⌋ := by
  unfold RateLimiter.check_and_consume at h
  by_cases hc : rl.max_requests ≤ (pruneL rl.period_seconds now (rl.requests key)).length
  · rw [if_pos hc] at h
    rcases hmin : (pruneL rl.period_seconds now (rl.requests key)).min? with _ | m
    · rw [hmin] at h
      exact absurd h (by simp)
    · rw [hmin] at h
      obtain ⟨h1, _⟩ := Prod.mk.inj (Option.some.inj h)
      have hmsg : rejectMessage (pyInt (rl.period_seconds - (now - m))) = msg :=
        Option.some.inj (Prod.mk.inj h1).2
      have hmem : m ∈ pruneL rl.period_seconds now (rl.requests key) :=
        List.min?_mem min_choice hmin
      have hlt : now - m < rl.period_seconds := (mem_pruneL.mp hmem).2
      refine ⟨m, rfl, hmem, ?_, hlt, ?_⟩
      · intro x hx
        exact (List.le_min?_iff (fun _ _ _ => le_min_iff) hmin).mp (le_refl m) x hx
      · rw [← hmsg]
        unfold pyInt
        rw [if_neg (by linarith)]
  · rw [if_neg hc] at h
    exact absurd h (by simp)

/-- C7 witness: one retained timestamp `0`, a rejected call at time `10` with
period `60` reports a 50-second wait. -/
theorem reject_message_wait_witness :
    ∃ msg rl', (RateLimiter.mk 1 60 (fun _ => [(0 : ℚ)])).check_and_consume "u" 10 =
        some ((false, some msg), rl') ∧
      msg = rejectMessage ⌊(60 : ℚ) - (10 - 0)⌋ := by
  have hprune : pruneL (60 : ℚ) 10 [(0 : ℚ)] = [0] := by
    unfold pruneL
    rw [List.filter_cons]
    norm_num
  have hlen : (RateLimiter.mk 1 60 (fun _ => [(0 : ℚ)])).max_requests ≤
      (pruneL (60 : ℚ) 10 [(0 : ℚ)]).length := by
    rw [hprune]
    simp
  have hmin : (pruneL (60 : ℚ) 10 [(0 : ℚ)]).min? = some 0 := by
    rw [hprune]
    rfl
  have hcall := @check_eq_rejected (RateLimiter.mk 1 60 (fun _ => [(0 : ℚ)])) "u" 10 0 hlen hmin
  obtain ⟨m, hmin', _, _, _, hmsg⟩ :=
    reject_message_wait (RateLimiter.mk 1 60 (fun _ => [(0 : ℚ)])) "u" 10 _ _ hcall
  have hm : m = 0 := (Option.some.inj (hmin.symm.trans hmin')).symm
  rw [hm] at hmsg
  exact ⟨_, _, hcall, hmsg⟩

/-- C8: a response with non-2xx status yields a failure result carrying both
the status code and the raw body text. -/
theorem non2xx_failure_result (c : ApiClient) (prompt : String) (ref : Option String)
    (resolution : String) (status : Nat) (text : String) (json : Except String PyVal)
    (saveB64 : PyVal → String) (hkeys : c.api_keys ≠ [])
    (hstatus : ¬(200 ≤ status ∧ status < 300)) :
    c.generate_image prompt ref resolution (.resp status text json) saveB64 =
      (false, .str ("API请求失败: " ++ toString status ++ " - " ++ text)) := by
  have hne : ¬(status = 200) := by omega
  simp [ApiClient.generate_image, List.isEmpty_iff, hkeys, hne]

/-- C8 witness: a 500 response with body `server error`. -/
theorem non2xx_failure_result_witness :
    ApiClient.generate_image
      ⟨["key1"], "https://ark.cn-beijing.volces.com", "doubao-seedream-4-5-251128"⟩
      "a selfie" Option.none "2K" (.resp 500 "server error" (.ok (.dict []))) (fun _ => "") =
      (false, .str "API请求失败: 500 - server error") :=
  (non2xx_failure_result _ "a selfie" Option.none "2K" 500 "server error" (.ok (.dict []))
    (fun _ => "") (by simp) (by omega)).trans rfl

/-- C9: transport exceptions are converted to returned failure results
carrying the exception text (never propagated — the model is total in the
outcome), and with no API keys configured the call fails fast. -/
theorem exceptions_as_failure_results (c : ApiClient) (prompt : String) (ref : Option String)
    (resolution : String) (saveB64 : PyVal → String) :
    (c.api_keys = [] → ∀ outcome,
      c.generate_image prompt ref resolution outcome saveB64 = (false, .str "API密钥未配置")) ∧
    (c.api_keys ≠ [] → ∀ e,
      c.generate_image prompt ref resolution (.exn e) saveB64 =
        (false, .str ("API请求异常: " ++ e))) := by
  constructor
  · intro h outcome
    simp [ApiClient.generate_image, h]
  · intro h e
    simp [ApiClient.generate_image, List.isEmpty_iff, h]

/-- C9 witness: both the fail-fast case and a caught transport exception. -/
theorem exceptions_as_failure_results_witness :
    ApiClient.generate_image ⟨[], "", "ep"⟩ "p" Option.none "1K" (.exn "boom") (fun _ => "") =
        (false, .str "API密钥未配置") ∧
    ApiClient.generate_image ⟨["k1"], "", "ep"⟩ "p" Option.none "1K" (.exn "boom")
        (fun _ => "") = (false, .str "API请求异常: boom") :=
  ⟨(exceptions_as_failure_results ⟨[], "", "ep"⟩ "p" Option.none "1K" (fun _ => "")).1
      rfl (.exn "boom"),
   ((exceptions_as_failure_results ⟨["k1"], "", "ep"⟩ "p" Option.none "1K" (fun _ => "")).2
      (by simp) "boom").trans rfl⟩

/-- C10: a rejected call never appends a timestamp — it only prunes (the new
list is the pruned old list, a sublist of the old); other keys are untouched;
a timestamp is appended exactly when the call is allowed. -/
theorem reject_no_append (rl : RateLimiter) (key : String) (now : ℚ)
    (res : Bool × Option String) (rl' : RateLimiter)
    (h : rl.check_and_consume key now = some (res, rl')) :
    (∀ k, k ≠ key → rl'.requests k = rl.requests k) ∧
    (res.1 = false → rl'.requests key = pruneL rl.period_seconds now (rl.requests key) ∧
      List.Sublist (rl'.requests key) (rl.requests key)) ∧
    (res.1 = true → rl'.requests key = pruneL rl.period_seconds now (rl.requests key) ++ [now]) ∧
    (res.1 = false →
      rl'.requests key ≠ pruneL rl.period_seconds now (rl.requests key) ++ [now]) := by
  unfold RateLimiter.check_and_consume at h
  by_cases hc : rl.max_requests ≤ (pruneL rl.period_seconds now (rl.requests key)).length
  · rw [if_pos hc] at h
    rcases hmin : (pruneL rl.period_seconds now (rl.requests key)).min? with _ | m
    · rw [hmin] at h
      exact absurd h (by simp)
    · rw [hmin] at h
      obtain ⟨h1, h2⟩ := Prod.mk.inj (Option.some.inj h)
      subst h2
      refine ⟨?_, ?_, ?_, ?_⟩
      · intro k hk
        simp [hk]
      · intro _
        exact ⟨by simp, by simp only [if_pos rfl]; exact pruneL_sublist⟩
      · intro ht
        rw [← h1] at ht
        exact absurd ht (by simp)
      · intro _ heq
        have := congrArg List.length heq
        simp at this
  · rw [if_neg hc] at h
    obtain ⟨h1, h2⟩ := Prod.mk.inj (Option.some.inj h)
    subst h2
    refine ⟨?_, ?_, ?_, ?_⟩
    · intro k hk
      simp [hk]
    · intro hf
      rw [← h1] at hf
      exact absurd hf (by simp)
    · intro _
      simp
    · intro hf
      rw [← h1] at hf
      exact absurd hf (by simp)

/-- C10 witness: an accepted first call appends its timestamp. -/
theorem reject_no_append_witness :
    ∃ rl', (freshLimiter 2 60).check_and_consume "u" 1 = some ((true, Option.none), rl') ∧
      rl'.requests "u" =
        pruneL (freshLimiter 2 60).period_seconds 1 ((freshLimiter 2 60).requests "u") ++ [1] := by
  obtain ⟨_, _, htrue, _⟩ :=
    reject_no_append (freshLimiter 2 60) "u" 1 (true, Option.none) _ rfl
  exact ⟨_, rfl, htrue rfl⟩

/-- C1: with `max_requests = N ≥ 1` and period `P`, starting from a fresh
limiter, `N` calls for one key at nondecreasing times are all allowed; the
`(N+1)`-th call at time `u` is rejected when `u - t1 < P` (less than `P`
seconds since the first accepted call) and allowed when `P ≤ u - t1`; at any
query the retained (pruned) entries all satisfy `now - t < P`, and the list
length never exceeds `N` after a successful check. -/
theorem rateLimiter_sliding_window (N : Nat) (P : ℚ) (t1 u : ℚ) (ts' : List ℚ) (key : String)
    (hN : 1 ≤ N) (hlen : (t1 :: ts').length = N)
    (hsort : List.Pairwise (· ≤ ·) ((t1 :: ts') ++ [u])) :
    ∃ bs rl1, runKey (freshLimiter N P) key (t1 :: ts') = some (bs, rl1) ∧
      (∀ r ∈ bs, r.1 = true) ∧
      (u - t1 < P → ∃ msg rl2, rl1.check_and_consume key u = some ((false, some msg), rl2)) ∧
      (P ≤ u - t1 → ∃ rl2, rl1.check_and_consume key u = some ((true, Option.none), rl2) ∧
        (rl2.requests key).length ≤ N) ∧
      (∀ (l : List ℚ) (now : ℚ), ∀ t ∈ pruneL P now l, now - t < P) ∧
      (∀ (rl rl2 : RateLimiter) (now : ℚ) (res : Option String),
        rl.max_requests = N → rl.check_and_consume key now = some ((true, res), rl2) →
        (rl2.requests key).length ≤ N) := by
  obtain ⟨hp1, _, hcross⟩ := List.pairwise_append.mp hsort
  have hmemts : ∀ s ∈ t1 :: ts', t1 ≤ s ∧ s ≤ u := by
    intro s hs
    constructor
    · rcases List.mem_cons.mp hs with h | h
      · exact h ▸ le_refl t1
      · exact (List.pairwise_cons.mp hp1).1 s h
    · exact hcross s hs u (List.mem_singleton.mpr rfl)
  obtain ⟨bs, rl1, hrun, htrue, hsub, hmax, hper⟩ :=
    runKey_capacity (t1 :: ts') (freshLimiter N P) key (by simp [freshLimiter, hlen])
  have hmax' : rl1.max_requests = N := by simpa [freshLimiter] using hmax
  have hper' : rl1.period_seconds = P := by simpa [freshLimiter] using hper
  have hsubkey : List.Sublist (rl1.requests key) (t1 :: ts') := by
    simpa [freshLimiter] using hsub
  refine ⟨bs, rl1, hrun, htrue, ?_, ?_, ?_, ?_⟩
  · -- the (N+1)-th call within the window is rejected
    intro hu
    obtain ⟨rlf, hrun2, hreq2, _, _⟩ :=
      runKey_window (t1 :: ts') (freshLimiter N P) key t1 u
        (by simp [freshLimiter]) hmemts (by simpa [freshLimiter] using hu)
        (by simp [freshLimiter, hlen])
    obtain ⟨hbs, hrl⟩ := Prod.mk.inj (Option.some.inj (hrun.symm.trans hrun2))
    have hreq : rl1.requests key = t1 :: ts' := by
      rw [hrl, hreq2]
      simp [freshLimiter]
    have hprune : pruneL P u (t1 :: ts') = t1 :: ts' :=
      pruneL_eq_self fun t ht => by
        have h1 := hmemts t ht
        linarith
    have hcond : rl1.max_requests ≤
        (pruneL rl1.period_seconds u (rl1.requests key)).length := by
      rw [hmax', hper', hreq, hprune, hlen]
    have hminq : (pruneL rl1.period_seconds u (rl1.requests key)).min? =
        some (ts'.foldl min t1) := by
      rw [hper', hreq, hprune]
      exact List.min?_cons'
    exact ⟨_, _, check_eq_rejected hcond hminq⟩
  · -- the (N+1)-th call after the window is allowed
    intro hu
    have hpsub : List.Sublist (pruneL rl1.period_seconds u (rl1.requests key))
        (t1 :: ts') := pruneL_sublist.trans hsubkey
    have hplen : (pruneL rl1.period_seconds u (rl1.requests key)).length <
        rl1.max_requests := by
      rcases Nat.lt_or_ge (pruneL rl1.period_seconds u (rl1.requests key)).length
        rl1.max_requests with h | h
      · exact h
      · exfalso
        have hle : (pruneL rl1.period_seconds u (rl1.requests key)).length ≤ N := by
          rw [← hlen]
          exact hpsub.length_le
        have heq : pruneL rl1.period_seconds u (rl1.requests key) = t1 :: ts' :=
          hpsub.eq_of_length (by rw [hlen]; omega)
        have ht1 : t1 ∈ pruneL rl1.period_seconds u (rl1.requests key) := by
          rw [heq]
          exact List.mem_cons_self _ _
        have hlt := (mem_pruneL.mp ht1).2
        rw [hper'] at hlt
        linarith
    refine ⟨_, check_eq_allowed hplen, ?_⟩
    show ((if key = key then pruneL rl1.period_seconds u (rl1.requests key) ++ [u]
      else rl1.requests key).length ≤ N)
    rw [if_pos rfl]
    simp only [List.length_append, List.length_singleton]
    omega
  · exact fun l now t ht => (mem_pruneL.mp ht).2
  · intro rl rl2 now res hmaxN hc
    unfold RateLimiter.check_and_consume at hc
    by_cases hcond : rl.max_requests ≤ (pruneL rl.period_seconds now (rl.requests key)).length
    · rw [if_pos hcond] at hc
      rcases hmn : (pruneL rl.period_seconds now (rl.requests key)).min? with _ | m
      · rw [hmn] at hc
        exact absurd hc (by simp)
      · rw [hmn] at hc
        obtain ⟨h1, _⟩ := Prod.mk.inj (Option.some.inj hc)
        exact absurd (Prod.mk.inj h1).1 (by simp)
    · rw [if_neg hcond] at hc
      obtain ⟨h1, h2⟩ := Prod.mk.inj (Option.some.inj hc)
      rw [← h2]
      show ((if key = key then pruneL rl.period_seconds now (rl.requests key) ++ [now]
        else rl.requests key).length ≤ N)
      rw [if_pos rfl]
      simp only [List.length_append, List.length_singleton]
      omega

/-- C1 witness: `N = 1`, `P = 60`, a first accepted call at time `0` and a
follow-up at time `70` (instantiating the theorem; both sub-cases'
implications are then available with `70 - 0 ≥ 60`). -/
theorem rateLimiter_sliding_window_witness :
    ∃ bs rl1, runKey (freshLimiter 1 60) "u" [(0 : ℚ)] = some (bs, rl1) ∧
      (∀ r ∈ bs, r.1 = true) ∧
      ((70 : ℚ) - 0 < 60 → ∃ msg rl2, rl1.check_and_consume "u" 70 =
        some ((false, some msg), rl2)) ∧
      ((60 : ℚ) ≤ 70 - 0 → ∃ rl2, rl1.check_and_consume "u" 70 =
        some ((true, Option.none), rl2) ∧ (rl2.requests "u").length ≤ 1) ∧
      (∀ (l : List ℚ) (now : ℚ), ∀ t ∈ pruneL 60 now l, now - t < 60) ∧
      (∀ (rl rl2 : RateLimiter) (now : ℚ) (res : Option String),
        rl.max_requests = 1 → rl.check_and_consume "u" now = some ((true, res), rl2) →
        (rl2.requests "u").length ≤ 1) :=
  rateLimiter_sliding_window 1 60 0 70 [] "u" (by decide) (by decide) (by decide)

end BotSelfie
